import Mathlib

/-!
Shallow embedding of the recursive-thinking agent of
`src/custom/recursive_thinking_base.py` (class `BaseRecursiveThinkingAgent`)
and proofs about its control loop.

Modelling conventions:
* Python strings are Lean `String`s; the per-character test `str.isdigit`
  is modelled by `Char.isDigit` (decimal digits), which agrees with Python
  on all ASCII text, and `str.lower`/`str.strip`/`split('\n')` by
  `String.toLower`/`String.trim`/`String.splitOn "\n"`.
* The external chat-completion collaborator (`_call_api`, provided by the
  provider subclasses) is modelled as a total oracle `Nat → String` giving
  the completed reply text of the n-th call of the session.  A failed call
  is represented by its error text, exactly as the adapters catch
  exceptions and return a fixed error string, so the oracle never fails.
  Every call is recorded in a log with its message list and temperature.
* Temperatures are exact rationals; the Python literals 0.2, 0.3, 0.7 and
  0.7 + i*0.1 are denoted by the corresponding rational values.
* Wall-clock timestamps, stdout printing and file-system paths are outside
  the embedding; the save operations return the data they would serialize
  instead of performing the write.
-/

namespace RecThink

/-- A chat message dictionary with keys `role` and `content`. -/
structure Message where
  role : String
  content : String
deriving DecidableEq, Repr

/-- One entry of `thinking_history`: a candidate answer tagged with the
round that produced it, its selection flag, an optional explanation and
(for alternatives) the 1-based alternative number.  Dictionary keys that
the Python code only sometimes sets are `Option`s. -/
structure Candidate where
  round : Nat
  response : String
  selected : Bool
  explanation : Option String
  alternative_number : Option Nat
deriving DecidableEq, Repr

/-- The arguments of one `_call_api` invocation, as recorded in the call
log: the message list sent and the temperature used. -/
structure CallRecord where
  messages : List Message
  temperature : ℚ
deriving DecidableEq, Repr

/-- The state of the external collaborator: the reply oracle, how many
calls have been made so far, and the log of every call issued in order. -/
structure ApiState where
  oracle : Nat → String
  count : Nat
  log : List CallRecord

/-- `_call_api`: one call to the collaborator.  Returns the completed reply
text and the collaborator state with the call recorded. -/
def call_api (api : ApiState) (messages : List Message) (temperature : ℚ) :
    String × ApiState :=
  (api.oracle api.count,
   ⟨api.oracle, api.count + 1, api.log ++ [⟨messages, temperature⟩]⟩)

/-- A collaborator scripted by a finite list of replies (the reply is the
empty string once the script is exhausted), used for concrete runs. -/
def api_of (replies : List String) : ApiState :=
  ⟨fun n => replies.getD n "", 0, []⟩

/-- The trimming of the conversation history at the end of a turn (source
lines 218-220): `if len(h) > 10: h = h[-10:]`. -/
def trim10 (l : List Message) : List Message :=
  if l.length > 10 then l.drop (l.length - 10) else l

/-- The meta prompt of `_determine_thinking_rounds` (source lines 49-53). -/
def meta_prompt (prompt : String) : String :=
  "Given this message: \"" ++ prompt ++ "\"\n\n" ++
  "How many rounds of iterative thinking (1-5) would be optimal to generate the best response?\n" ++
  "Consider the complexity and nuance required.\n" ++
  "Respond with just a number between 1 and 5."

/-- The per-alternative instruction of `_generate_alternatives` (source
lines 82-87). -/
def alt_prompt (prompt base_response : String) : String :=
  "Original message: " ++ prompt ++ "\n\n" ++
  "Current response: " ++ base_response ++ "\n\n" ++
  "Generate an alternative response that might be better. Be creative and consider different approaches.\n" ++
  "Alternative response:"

/-- The evaluation query of `_evaluate_responses` (source lines 99-110),
with the alternatives enumerated `1.` to `N.`. -/
def eval_prompt (prompt current_best : String) (alternatives : List String) :
    String :=
  "Original message: " ++ prompt ++ "\n\n" ++
  "Evaluate these responses and choose the best one:\n\n" ++
  "Current best: " ++ current_best ++ "\n\n" ++
  "Alternatives:\n" ++
  String.intercalate "\n"
    (alternatives.mapIdx fun i alt => toString (i + 1) ++ ". " ++ alt) ++
  "\n\n" ++
  "Which response best addresses the original message? Consider accuracy, clarity, and completeness.\n" ++
  "First, respond with ONLY 'current' or a number (1-" ++
  toString alternatives.length ++ ").\n" ++
  "Then on a new line, explain your choice in one sentence."

/-- The call record of the i-th alternative call of a round (source lines
89-90): the rolling conversation history plus the per-alternative
instruction, at temperature `0.7 + i * 0.1`. -/
def alt_call_record (hist : List Message) (prompt base_response : String)
    (i : Nat) : CallRecord :=
  ⟨hist ++ [⟨"user", alt_prompt prompt base_response⟩],
   7 / 10 + (i : ℚ) * (1 / 10)⟩

/-- The call record of the round-planning call (source line 58): the meta
prompt alone, at temperature 0.3. -/
def plan_call_record (prompt : String) : CallRecord :=
  ⟨[⟨"user", meta_prompt prompt⟩], 3 / 10⟩

/-- The call record of the initial-response call (source line 170): the
rolling conversation history plus the new user turn, at the default
temperature 0.7. -/
def init_call_record (hist : List Message) (user_input : String) :
    CallRecord :=
  ⟨hist ++ [⟨"user", user_input⟩], 7 / 10⟩

/-- The call record of a round's evaluation call (source lines 112-113):
the evaluation query alone, at temperature 0.2. -/
def eval_call_record (prompt current_best : String)
    (alternatives : List String) : CallRecord :=
  ⟨[⟨"user", eval_prompt prompt current_best alternatives⟩], 2 / 10⟩

/-- The digit characters of `s` in order: `filter(str.isdigit, response)`. -/
def digit_chars (s : String) : List Char := s.data.filter Char.isDigit

/-- The value of `int` on a string of decimal digits. -/
def digits_to_nat (l : List Char) : Nat :=
  l.foldl (fun n c => n * 10 + (c.toNat - 48)) 0

/-- The parsing step of `_determine_thinking_rounds` (source lines 61-65):
`int(''.join(filter(str.isdigit, response)))` clamped by
`min(max(rounds, 1), 5)`.  `int('')` raises, and the bare `except` turns
that into the default 3. -/
def determine_rounds_of_reply (response : String) : Nat :=
  let ds := digit_chars response
  if ds.isEmpty then 3
  else min (max (digits_to_nat ds) 1) 5

/-- `_determine_thinking_rounds` (source lines 47-65): one collaborator
call at temperature 0.3 with the meta prompt, then the digit extraction. -/
def determine_thinking_rounds (api : ApiState) (prompt : String) :
    Nat × ApiState :=
  let (response, api) := call_api api [⟨"user", meta_prompt prompt⟩] (3 / 10)
  (determine_rounds_of_reply response, api)

/-- Modelled from the spec: section 4.1 says the round planner extracts
"the first run of decimal digits in the reply" and clamps it into [1,5],
falling back to 3 when there is none.  This definition follows those words
(the code under test is `determine_rounds_of_reply` above). -/
def spec_first_run_rounds (s : String) : Nat :=
  match s.data.dropWhile (fun c => !c.isDigit) with
  | [] => 3
  | c :: rest => min (max (digits_to_nat (c :: rest.takeWhile Char.isDigit)) 1) 5

/-- The loop of `_generate_alternatives` (source lines 78-94), carrying the
running index `i`: each iteration issues one call whose messages are the
rolling conversation history plus the per-alternative instruction, at
temperature `0.7 + i * 0.1`. -/
def generate_alternatives_from (hist : List Message)
    (base_response prompt : String) :
    Nat → Nat → ApiState → List String × ApiState
  | _, 0, api => ([], api)
  | i, k + 1, api =>
    let (alternative, api) :=
      call_api api (hist ++ [⟨"user", alt_prompt prompt base_response⟩])
        (7 / 10 + (i : ℚ) * (1 / 10))
    let (rest, api2) :=
      generate_alternatives_from hist base_response prompt (i + 1) k api
    (alternative :: rest, api2)

/-- `_generate_alternatives` (source lines 67-94). -/
def generate_alternatives (hist : List Message)
    (base_response prompt : String) (num_alternatives : Nat)
    (api : ApiState) : List String × ApiState :=
  generate_alternatives_from hist base_response prompt 0 num_alternatives api

/-- Python `s.split('\n')` on the character list of `s`: pieces between
newline characters, keeping empty pieces. -/
def py_split_newlines : List Char → List String
  | [] => [""]
  | c :: rest =>
    if c = '\n' then "" :: py_split_newlines rest
    else match py_split_newlines rest with
      | [] => [String.mk [c]]
      | piece :: pieces => String.mk (c :: piece.data) :: pieces

/-- Python `s.strip()`: the string without leading and trailing
whitespace. -/
def py_strip (s : String) : String :=
  String.mk
    (((s.data.dropWhile Char.isWhitespace).reverse.dropWhile
      Char.isWhitespace).reverse)

/-- Python `s.lower()` on ASCII text. -/
def py_lower (s : String) : String := String.mk (s.data.map Char.toLower)

/-- Python `sep.join(pieces)`. -/
def py_join (sep : String) : List String → String
  | [] => ""
  | [x] => x
  | x :: y :: rest => x ++ sep ++ py_join sep (y :: rest)

/-- Python substring membership `pat in s`. -/
def has_substr (pat : List Char) : List Char → Bool
  | [] => pat.isEmpty
  | c :: rest => pat.isPrefixOf (c :: rest) || has_substr pat rest

/-- Non-empty stripped lines of the evaluation reply:
`[line.strip() for line in evaluation.split('\n') if line.strip()]`. -/
def clean_lines (s : String) : List String :=
  ((py_split_newlines s.data).map py_strip).filter (fun l => l != "")

/-- Python substring membership `pat in s` on strings. -/
def contains_substr (s pat : String) : Bool :=
  has_substr pat.data s.data

/-- The choice-and-explanation extraction of `_evaluate_responses` (source
lines 116-133).  `none` stands for the Python string `'current'` (both the
literal keyword case and the no-digit fallback); `some c` is the first
digit character of the first line. -/
def evaluate_choice (evaluation : String) : Option Char × String :=
  match clean_lines evaluation with
  | [] => (none, "No explanation provided")
  | first :: rest =>
    let fl := py_lower first
    let choice := if contains_substr fl "current" then none
                  else fl.data.find? Char.isDigit
    let explanation :=
      if rest.isEmpty then "No explanation provided"
      else py_join " " rest
    (choice, explanation)

/-- The winner selection of `_evaluate_responses` (source lines 135-145):
`'current'` keeps the current best; a digit `c` gives `int(c) - 1`, which
is bounds-checked against the alternatives (`0 <= index < len`), falling
back to `current_best` when out of range.  The single digit `c` has
`int(c) = c.toNat - 48`. -/
def evaluate_winner (current_best : String) (alternatives : List String) :
    Option Char → String
  | none => current_best
  | some c =>
    let n := c.toNat - 48
    if 1 ≤ n ∧ n ≤ alternatives.length then
      alternatives.getD (n - 1) current_best
    else
      current_best

/-- The full parsing of `_evaluate_responses` (source lines 116-145):
choice extraction, then winner selection, paired with the explanation. -/
def evaluate_responses_of_reply (evaluation current_best : String)
    (alternatives : List String) : String × String :=
  (evaluate_winner current_best alternatives (evaluate_choice evaluation).1,
   (evaluate_choice evaluation).2)

/-- `_evaluate_responses` (source lines 96-145): one collaborator call at
temperature 0.2 with the evaluation query, then the reply parsing. -/
def evaluate_responses (api : ApiState) (prompt current_best : String)
    (alternatives : List String) : (String × String) × ApiState :=
  let (evaluation, api) :=
    call_api api [⟨"user", eval_prompt prompt current_best alternatives⟩]
      (2 / 10)
  (evaluate_responses_of_reply evaluation current_best alternatives, api)

/-- The history entries appended for a round's alternatives (source lines
184-190): `for i, alt in enumerate(alternatives)` appends an unselected
candidate numbered `i + 1`. -/
def fresh_candidates (round_num : Nat) : Nat → List String → List Candidate
  | _, [] => []
  | i, alt :: rest =>
    ⟨round_num, alt, false, none, some (i + 1)⟩ ::
      fresh_candidates round_num (i + 1) rest

/-- The update applied to one history item at source lines 197-200: a
candidate of this round whose response equals the winner becomes selected
and carries the explanation; any other item is untouched. -/
def mark_one (round_num : Nat) (new_best explanation : String)
    (item : Candidate) : Candidate :=
  if item.round == round_num && item.response == new_best then
    { item with selected := true, explanation := some explanation }
  else item

/-- Source lines 196-201: mark every candidate of this round whose response
equals the winner as selected and attach the explanation to it. -/
def mark_selected (round_num : Nat) (new_best explanation : String)
    (history : List Candidate) : List Candidate :=
  history.map (mark_one round_num new_best explanation)

/-- Source lines 205-209: attach the explanation to the first candidate
that is selected and carries the current best response (the Python loop
breaks after the first match). -/
def attach_to_selected (current_best explanation : String) :
    List Candidate → List Candidate
  | [] => []
  | item :: rest =>
    if item.selected && item.response == current_best then
      { item with explanation := some explanation } :: rest
    else item :: attach_to_selected current_best explanation rest

/-- One refinement round: the body of the loop at source lines 176-212,
acting on the state `(current_best, thinking_history, api)`. -/
def run_round (hist0 : List Message) (user_input : String)
    (num_alternatives round_num : Nat)
    (st : String × List Candidate × ApiState) :
    String × List Candidate × ApiState :=
  let (current_best, history, api) := st
  let (alternatives, api) :=
    generate_alternatives hist0 current_best user_input num_alternatives api
  let history := history ++ fresh_candidates round_num 0 alternatives
  let ((new_best, explanation), api) :=
    evaluate_responses api user_input current_best alternatives
  if new_best ≠ current_best then
    (new_best, mark_selected round_num new_best explanation history, api)
  else
    (current_best, attach_to_selected current_best explanation history, api)

/-- The rounds `round_num, round_num + 1, ...` while `k` rounds remain
(`for round_num in range(1, thinking_rounds + 1)` starts this at 1). -/
def run_rounds (hist0 : List Message) (user_input : String)
    (num_alternatives : Nat) :
    Nat → Nat → String × List Candidate × ApiState →
    String × List Candidate × ApiState
  | _, 0, st => st
  | round_num, k + 1, st =>
    run_rounds hist0 user_input num_alternatives (round_num + 1) k
      (run_round hist0 user_input num_alternatives round_num st)

/-- One record of `full_thinking_log` (source lines 223-229; the wall-clock
timestamp field is outside the embedding). -/
structure LogEntry where
  user_input : String
  final_response : String
  thinking_rounds : Nat
  thinking_history : List Candidate
deriving DecidableEq, Repr

/-- The mutable attributes of `BaseRecursiveThinkingAgent`. -/
structure AgentState where
  conversation_history : List Message
  full_thinking_log : List LogEntry
deriving DecidableEq, Repr

/-- The dictionary returned by `think_and_respond` (source lines 235-239). -/
structure TurnResult where
  response : String
  thinking_rounds : Nat
  thinking_history : List Candidate
deriving DecidableEq, Repr

/-- `think_and_respond` (source lines 147-241): plan the rounds, produce
the initial answer (the sole round-0 candidate, selected), run the
refinement rounds, then append the `{user, assistant}` pair to the
conversation history, trimming it to its last 10 entries, and append the
turn to the full thinking log. -/
def think_and_respond (st : AgentState) (api : ApiState)
    (user_input : String) (num_alternatives : Nat) :
    TurnResult × AgentState × ApiState :=
  let (thinking_rounds, api) := determine_thinking_rounds api user_input
  let (current_best, api) :=
    call_api api (st.conversation_history ++ [⟨"user", user_input⟩]) (7 / 10)
  let history : List Candidate := [⟨0, current_best, true, none, none⟩]
  let (current_best, history, api) :=
    run_rounds st.conversation_history user_input num_alternatives 1
      thinking_rounds (current_best, history, api)
  let conv := trim10 (st.conversation_history ++
    [⟨"user", user_input⟩, ⟨"assistant", current_best⟩])
  let log := st.full_thinking_log ++
    [⟨user_input, current_best, thinking_rounds, history⟩]
  (⟨current_best, thinking_rounds, history⟩, ⟨conv, log⟩, api)

/-- A sequence of turns, each given by its user input and its number of
alternatives per round. -/
def run_turns : AgentState → ApiState → List (String × Nat) →
    AgentState × ApiState
  | st, api, [] => (st, api)
  | st, api, (input, n) :: rest =>
    let (_, st, api) := think_and_respond st api input n
    run_turns st api rest

/-- `save_conversation` (source lines 257-268) only reads
`conversation_history` to build the JSON document; it assigns no attribute,
so the agent state is returned unchanged next to the serialized data. -/
def save_conversation (st : AgentState) : AgentState × List Message :=
  (st, st.conversation_history)

/-- `save_full_log` (source lines 243-255) only reads the two attributes to
build the JSON document; it assigns no attribute. -/
def save_full_log (st : AgentState) :
    AgentState × (List Message × List LogEntry) :=
  (st, (st.conversation_history, st.full_thinking_log))

/-- The markdown paragraph one candidate contributes in
`save_response_as_markdown` (source lines 300-307): the selection marker,
the response, and the rationale when the entry is selected and has one. -/
def candidate_markdown (item : Candidate) : String :=
  "### Round " ++ toString item.round ++ " - " ++
    (if item.selected then "✅ SELECTED" else "❌ ALTERNATIVE") ++ "\n\n" ++
  item.response ++ "\n\n" ++
  (match item.explanation, item.selected with
   | some e, true => "**Reason for selection:** " ++ e ++ "\n\n"
   | _, _ => "") ++
  "---\n\n"

/-- The markdown document of `save_response_as_markdown` (source lines
288-307). -/
def response_markdown (user_input : String) (result : TurnResult) : String :=
  "# Response to: " ++ user_input ++ "\n\n" ++
  "## Final Response\n" ++ result.response ++ "\n\n" ++
  "## Thinking Process\n\n" ++
  "**Number of thinking rounds:** " ++ toString result.thinking_rounds ++
  "\n\n\n" ++
  String.join (result.thinking_history.map candidate_markdown)

/-- `save_response_as_markdown` (source lines 270-313) builds the markdown
document from its arguments and writes it to a file; it assigns no
attribute, so the agent state is returned unchanged next to the document. -/
def save_response_as_markdown (st : AgentState) (user_input : String)
    (result : TurnResult) : AgentState × String :=
  (st, response_markdown user_input result)

/-- The shape of the call log of `k` refinement rounds: each round issues
its `N` alternative calls (temperatures 0.7, 0.8, ...) against the rolling
history plus the per-alternative instruction for that round's current best,
followed by one evaluation call presenting the `N` generated alternatives. -/
inductive IsRoundBlocks (hist0 : List Message) (prompt : String) (N : Nat) :
    Nat → List CallRecord → Prop where
  | nil : IsRoundBlocks hist0 prompt N 0 []
  | cons (base : String) (alts : List String) (k : Nat)
      (rest : List CallRecord) (hlen : alts.length = N)
      (hrest : IsRoundBlocks hist0 prompt N k rest) :
      IsRoundBlocks hist0 prompt N (k + 1)
        ((List.range N).map (alt_call_record hist0 prompt base) ++
          (eval_call_record prompt base alts :: rest))

/-- How many candidates of round `r` a trace holds. -/
def round_count (r : Nat) (l : List Candidate) : Nat :=
  (l.filter (fun c => c.round == r)).length

/-- How many candidates of round `r` a trace holds marked selected. -/
def sel_count (r : Nat) (l : List Candidate) : Nat :=
  (l.filter (fun c => c.round == r && c.selected)).length

/-- The selection invariant of a trace before round `rn` runs, for initial
answer `init` and `N` alternatives per round: round 0 holds exactly one
candidate - the initial answer, still marked selected - every candidate
belongs to a round below `rn`, and every completed round `1 <= r < rn`
holds exactly `N` candidates of which at most one is marked selected. -/
def TraceOK (init : String) (N rn : Nat) (trace : List Candidate) : Prop :=
  round_count 0 trace = 1 ∧
  sel_count 0 trace = 1 ∧
  (∀ c ∈ trace, c.round = 0 → c.selected = true ∧ c.response = init) ∧
  (∀ c ∈ trace, c.round < rn) ∧
  (∀ r, 1 ≤ r → r < rn → round_count r trace = N ∧ sel_count r trace ≤ 1)

/-- An oracle whose replies are pairwise distinct, for concrete runs that
need distinct alternatives. -/
def rep_oracle (n : Nat) : String := String.mk (List.replicate n 'a')

lemma rep_oracle_inj : ∀ i j : Nat, rep_oracle i = rep_oracle j → i = j := by
  intro i j h
  have hlen := congrArg (fun s => s.data.length) h
  simpa [rep_oracle] using hlen

lemma getD_mem {α : Type} :
    ∀ (l : List α) (n : Nat) (d : α), n < l.length → l.getD n d ∈ l := by
  intro l
  induction l with
  | nil => intro n d h; simp at h
  | cons a l ih =>
    intro n d h
    cases n with
    | zero => simp [List.getD]
    | succ n =>
      simpa [List.getD] using Or.inr (ih n d (by simpa using h))

lemma evaluate_winner_mem (cb : String) (alts : List String) :
    ∀ choice, evaluate_winner cb alts choice = cb ∨
      evaluate_winner cb alts choice ∈ alts := by
  intro choice
  cases choice with
  | none => exact Or.inl rfl
  | some c =>
    simp only [evaluate_winner]
    split
    · rename_i h
      exact Or.inr (getD_mem _ _ _ (by omega))
    · exact Or.inl rfl

lemma determine_rounds_of_reply_eq (s : String) :
    determine_rounds_of_reply s =
      if digit_chars s = [] then 3
      else min (max (digits_to_nat (digit_chars s)) 1) 5 := by
  unfold determine_rounds_of_reply
  cases h : digit_chars s <;> simp [h]

/-- C2: for every model reply string, `_determine_thinking_rounds` returns
an integer in [1,5]; when the reply holds no digit at all the `int('')`
failure makes it return the fixed default 3.  The reply of the planning
call is the oracle's text at the current call index. -/
theorem determine_rounds_range (api : ApiState) (prompt : String) :
    1 ≤ (determine_thinking_rounds api prompt).1 ∧
    (determine_thinking_rounds api prompt).1 ≤ 5 ∧
    (digit_chars (api.oracle api.count) = [] →
      (determine_thinking_rounds api prompt).1 = 3) := by
  have h1 : (determine_thinking_rounds api prompt).1 =
      determine_rounds_of_reply (api.oracle api.count) := rfl
  rw [h1, determine_rounds_of_reply_eq]
  by_cases hd : digit_chars (api.oracle api.count) = []
  · simp [hd]
  · rw [if_neg hd]
    exact ⟨by omega, by omega, fun h => absurd h hd⟩

/-- C4: the documented parsing policy of `_evaluate_responses` on the three
spec vectors: a digit line picks the 1-based alternative with the second
line as rationale; the literal `current` keeps the current best with the
placeholder rationale; an out-of-range digit falls back to the current
best. -/
theorem evaluate_parse_vectors (cb a1 a2 a3 : String) :
    evaluate_responses_of_reply "2\nBecause it's clearer." cb [a1, a2, a3] =
      (a2, "Because it's clearer.") ∧
    evaluate_responses_of_reply "current" cb [a1, a2, a3] =
      (cb, "No explanation provided") ∧
    evaluate_responses_of_reply "7\nreason" cb [a1, a2, a3] =
      (cb, "reason") :=
  ⟨rfl, rfl, rfl⟩

/-- C5: `_evaluate_responses` is total on every reply (the Lean function is
defined on all inputs, mirroring that no exception escapes the parsing
path), the winner is always the current best or one of the alternatives,
the `'current'`/no-digit choice and an out-of-range digit both fall back to
the current best, and the empty reply yields the current best with the
fixed placeholder rationale. -/
theorem evaluate_responses_total (api : ApiState) (prompt cb : String)
    (alts : List String) :
    ((evaluate_responses api prompt cb alts).1.1 = cb ∨
      (evaluate_responses api prompt cb alts).1.1 ∈ alts) ∧
    ((evaluate_choice (api.oracle api.count)).1 = none →
      (evaluate_responses api prompt cb alts).1.1 = cb) ∧
    (∀ c, (evaluate_choice (api.oracle api.count)).1 = some c →
      ¬(1 ≤ c.toNat - 48 ∧ c.toNat - 48 ≤ alts.length) →
      (evaluate_responses api prompt cb alts).1.1 = cb) ∧
    (api.oracle api.count = "" →
      (evaluate_responses api prompt cb alts).1 =
        (cb, "No explanation provided")) := by
  have h1 : (evaluate_responses api prompt cb alts).1 =
      evaluate_responses_of_reply (api.oracle api.count) cb alts := rfl
  refine ⟨?_, ?_, ?_, ?_⟩
  · rw [h1]
    exact evaluate_winner_mem cb alts _
  · intro hc
    rw [h1]
    show evaluate_winner cb alts (evaluate_choice (api.oracle api.count)).1 = cb
    rw [hc]
    exact rfl
  · intro c hc hrange
    rw [h1]
    show evaluate_winner cb alts (evaluate_choice (api.oracle api.count)).1 = cb
    rw [hc]
    simp only [evaluate_winner]
    rw [if_neg hrange]
  · intro he
    rw [h1, he]
    exact rfl

/-- C8 counterexample: the reply `"1 or 2"` contains the digit runs `1` and
`2`; the spec's first-run rule gives 1 round, but the code concatenates all
digits (`int(''.join(filter(str.isdigit, response)))` = 12) and clamps to
5, so the returned round count is 5, not 1. -/
theorem determine_rounds_first_run_cex :
    spec_first_run_rounds "1 or 2" = 1 ∧
    (determine_thinking_rounds (api_of ["1 or 2"]) "anything").1 = 5 :=
  ⟨rfl, rfl⟩

/-- C8 amended: when the planning reply contains decimal digits, the round
count is the integer formed by concatenating ALL decimal digit characters
of the reply (not the first run), clamped into [1,5]. -/
theorem determine_rounds_digit_concat (api : ApiState) (prompt : String)
    (h : digit_chars (api.oracle api.count) ≠ []) :
    (determine_thinking_rounds api prompt).1 =
      min (max (digits_to_nat (digit_chars (api.oracle api.count))) 1) 5 := by
  have h1 : (determine_thinking_rounds api prompt).1 =
      determine_rounds_of_reply (api.oracle api.count) := rfl
  rw [h1]
  unfold determine_rounds_of_reply
  cases hd : digit_chars (api.oracle api.count) with
  | nil => exact absurd hd h
  | cons c cs => simp

theorem determine_rounds_digit_concat_witness :
    (determine_thinking_rounds (api_of ["1 or 2"]) "q").1 =
      min (max (digits_to_nat (digit_chars "1 or 2")) 1) 5 :=
  determine_rounds_digit_concat (api_of ["1 or 2"]) "q" (by decide)

/-- C3 counterexample: in the spec's end-to-end scenario (one round, two
alternatives, the evaluator picks alternative 2 with the rationale "more
concise") the final trace holds 3 candidates - the round-0 initial answer
plus the two round-1 alternatives - not 4 as the claim states. -/
theorem end_to_end_scenario_cex :
    (think_and_respond ⟨[], []⟩
      (api_of ["1", "R0", "R1a", "R1b", "2\nmore concise"])
      "Explain recursion" 2).1.thinking_history.length ≠ 4 ∧
    (think_and_respond ⟨[], []⟩
      (api_of ["1", "R0", "R1a", "R1b", "2\nmore concise"])
      "Explain recursion" 2).1.thinking_history.length = 3 :=
  ⟨by decide, rfl⟩

/-- C3 amended: in the end-to-end scenario the final trace holds exactly 3
candidates (the selected round-0 initial answer, the unselected round-1
alternative 1, and the round-1 alternative 2 reselected with the rationale
"more concise" attached), the final response is alternative 2, and the
conversation history grows from empty by exactly the 2 messages of the
turn. -/
theorem end_to_end_scenario :
    (think_and_respond ⟨[], []⟩
      (api_of ["1", "R0", "R1a", "R1b", "2\nmore concise"])
      "Explain recursion" 2).1.thinking_history =
      [⟨0, "R0", true, none, none⟩,
       ⟨1, "R1a", false, none, some 1⟩,
       ⟨1, "R1b", true, some "more concise", some 2⟩] ∧
    (think_and_respond ⟨[], []⟩
      (api_of ["1", "R0", "R1a", "R1b", "2\nmore concise"])
      "Explain recursion" 2).1.response = "R1b" ∧
    (think_and_respond ⟨[], []⟩
      (api_of ["1", "R0", "R1a", "R1b", "2\nmore concise"])
      "Explain recursion" 2).2.1.conversation_history =
      [⟨"user", "Explain recursion"⟩, ⟨"assistant", "R1b"⟩] :=
  ⟨rfl, rfl, rfl⟩

/-- C1 counterexample: a completed one-round turn in which the evaluator
answers `current` leaves every round-1 candidate unselected, so the trace
does not contain exactly one selected candidate for round 1. -/
theorem thinking_trace_selection_cex :
    (think_and_respond ⟨[], []⟩ (api_of ["1", "A", "B", "current"])
      "q" 1).1.thinking_rounds = 1 ∧
    sel_count 1 (think_and_respond ⟨[], []⟩
      (api_of ["1", "A", "B", "current"]) "q" 1).1.thinking_history = 0 :=
  ⟨rfl, rfl⟩

lemma generate_from_spec (hist : List Message) (b p : String) :
    ∀ (k i : Nat) (api : ApiState),
      (generate_alternatives_from hist b p i k api).1 =
        (List.range k).map (fun j => api.oracle (api.count + j)) ∧
      (generate_alternatives_from hist b p i k api).2.oracle = api.oracle ∧
      (generate_alternatives_from hist b p i k api).2.count =
        api.count + k ∧
      (generate_alternatives_from hist b p i k api).2.log =
        api.log ++
          (List.range k).map (fun j => alt_call_record hist p b (i + j)) := by
  intro k
  induction k with
  | zero =>
    intro i api
    simp [generate_alternatives_from]
  | succ k ih =>
    intro i api
    obtain ⟨h1, ho, h2, h3⟩ := ih (i + 1)
      ⟨api.oracle, api.count + 1, api.log ++ [alt_call_record hist p b i]⟩
    have hstep : generate_alternatives_from hist b p i (k + 1) api =
        (api.oracle api.count ::
          (generate_alternatives_from hist b p (i + 1) k
            ⟨api.oracle, api.count + 1,
             api.log ++ [alt_call_record hist p b i]⟩).1,
         (generate_alternatives_from hist b p (i + 1) k
            ⟨api.oracle, api.count + 1,
             api.log ++ [alt_call_record hist p b i]⟩).2) := rfl
    rw [hstep]
    have hcount :
        (⟨api.oracle, api.count + 1,
          api.log ++ [alt_call_record hist p b i]⟩ : ApiState).count =
        api.count + 1 := rfl
    refine ⟨?_, ?_, ?_, ?_⟩
    · rw [h1, hcount]
      rw [List.range_succ_eq_map, List.map_cons, List.map_map]
      refine congrArg₂ _ (by rw [Nat.add_zero]) ?_
      refine List.map_congr_left fun j _ => ?_
      simp only [Function.comp]
      exact congrArg api.oracle (by omega)
    · exact ho
    · rw [h2, hcount]
      omega
    · rw [h3]
      have hlog :
          (⟨api.oracle, api.count + 1,
            api.log ++ [alt_call_record hist p b i]⟩ : ApiState).log =
          api.log ++ [alt_call_record hist p b i] := rfl
      rw [hlog, List.range_succ_eq_map, List.map_cons, List.map_map,
        List.append_assoc, List.singleton_append]
      refine congrArg _ (congrArg₂ _ ?_ ?_)
      · exact congrArg (alt_call_record hist p b) (by omega)
      · refine List.map_congr_left fun j _ => ?_
        simp only [Function.comp]
        exact congrArg (alt_call_record hist p b) (by omega)

lemma generate_alternatives_spec (hist : List Message) (b p : String)
    (n : Nat) (api : ApiState) :
    (generate_alternatives hist b p n api).1 =
      (List.range n).map (fun j => api.oracle (api.count + j)) ∧
    (generate_alternatives hist b p n api).2.oracle = api.oracle ∧
    (generate_alternatives hist b p n api).2.count = api.count + n ∧
    (generate_alternatives hist b p n api).2.log =
      api.log ++ (List.range n).map (alt_call_record hist p b) := by
  obtain ⟨h1, ho, h2, h3⟩ := generate_from_spec hist b p n 0 api
  refine ⟨h1, ho, h2, ?_⟩
  rw [show (generate_alternatives hist b p n api).2 =
    (generate_alternatives_from hist b p 0 n api).2 from rfl, h3]
  refine congrArg _ (List.map_congr_left fun j _ => ?_)
  exact congrArg (alt_call_record hist p b) (by omega)

/-- C7: `_generate_alternatives` returns exactly `count` items in
generation order (the oracle is total: a failed call contributes its error
text, so every slot is filled); the i-th call is issued at temperature
`0.7 + 0.1*i` and its message context is the rolling conversation history
plus the fixed per-alternative instruction only (`alt_call_record`) - the
record of each call depends on neither the other alternatives nor the call
replies. -/
theorem generate_alternatives_contract (hist : List Message)
    (base_response prompt : String) (count : Nat) (api : ApiState) :
    (generate_alternatives hist base_response prompt count api).1.length =
      count ∧
    (generate_alternatives hist base_response prompt count api).1 =
      (List.range count).map (fun i => api.oracle (api.count + i)) ∧
    (generate_alternatives hist base_response prompt count api).2.count =
      api.count + count ∧
    (generate_alternatives hist base_response prompt count api).2.log =
      api.log ++ (List.range count).map
        (alt_call_record hist prompt base_response) := by
  obtain ⟨h1, _, h2, h3⟩ := generate_from_spec hist base_response prompt
    count 0 api
  refine ⟨?_, h1, h2, ?_⟩
  · rw [show (generate_alternatives hist base_response prompt count api).1 =
      (generate_alternatives_from hist base_response prompt 0 count api).1
      from rfl, h1]
    simp
  · rw [show (generate_alternatives hist base_response prompt count api).2 =
      (generate_alternatives_from hist base_response prompt 0 count api).2
      from rfl, h3]
    refine congrArg _ (List.map_congr_left fun j _ => ?_)
    exact congrArg (alt_call_record hist prompt base_response) (by omega)

lemma think_and_respond_eq (st : AgentState) (api : ApiState)
    (input : String) (n : Nat) (f : String × List Candidate × ApiState)
    (hf : f = run_rounds st.conversation_history input n 1
      (determine_rounds_of_reply (api.oracle api.count))
      (api.oracle (api.count + 1),
       [⟨0, api.oracle (api.count + 1), true, none, none⟩],
       ⟨api.oracle, api.count + 2,
        (api.log ++ [plan_call_record input]) ++
          [init_call_record st.conversation_history input]⟩)) :
    think_and_respond st api input n =
      (⟨f.1, determine_rounds_of_reply (api.oracle api.count), f.2.1⟩,
       ⟨trim10 (st.conversation_history ++
          [⟨"user", input⟩, ⟨"assistant", f.1⟩]),
        st.full_thinking_log ++
          [⟨input, f.1, determine_rounds_of_reply (api.oracle api.count),
            f.2.1⟩]⟩,
       f.2.2) := by
  subst hf
  rfl

lemma run_round_eq (hist0 : List Message) (input : String) (N rn : Nat)
    (cb : String) (trace : List Candidate) (api : ApiState)
    (G : List String × ApiState) (E : String × String)
    (hG : G = generate_alternatives hist0 cb input N api)
    (hE : E = evaluate_responses_of_reply (G.2.oracle G.2.count) cb G.1) :
    run_round hist0 input N rn (cb, trace, api) =
      if E.1 ≠ cb then
        (E.1, mark_selected rn E.1 E.2 (trace ++ fresh_candidates rn 0 G.1),
         (⟨G.2.oracle, G.2.count + 1,
           G.2.log ++ [eval_call_record input cb G.1]⟩ : ApiState))
      else
        (cb, attach_to_selected cb E.2 (trace ++ fresh_candidates rn 0 G.1),
         (⟨G.2.oracle, G.2.count + 1,
           G.2.log ++ [eval_call_record input cb G.1]⟩ : ApiState)) := by
  subst hE
  subst hG
  rfl

lemma trim10_eq_drop (l : List Message) :
    trim10 l = l.drop (l.length - 10) := by
  unfold trim10
  split
  · rfl
  · rename_i h
    have h0 : l.length - 10 = 0 := by omega
    rw [h0, List.drop_zero]

lemma trim10_length_le (l : List Message) : (trim10 l).length ≤ 10 := by
  unfold trim10
  split
  · rename_i h
    rw [List.length_drop]
    omega
  · rename_i h
    omega

lemma turn_conv (st : AgentState) (api : ApiState) (input : String)
    (n : Nat) :
    (think_and_respond st api input n).2.1.conversation_history =
      trim10 (st.conversation_history ++
        [⟨"user", input⟩,
         ⟨"assistant", (think_and_respond st api input n).1.response⟩]) :=
  rfl

/-- C6: after every completed turn the conversation history holds at most
10 messages, and the retained messages are exactly the most recent 10 (by
content, in order) of the old history extended with the turn's user and
assistant messages: the new history is the `drop` of all but the last 10.
The bound also holds after any sequence of turns from a state within the
bound. -/
theorem conversation_history_bounded (st : AgentState) (api : ApiState)
    (input : String) (n : Nat) :
    (think_and_respond st api input n).2.1.conversation_history.length
      ≤ 10 ∧
    (think_and_respond st api input n).2.1.conversation_history =
      (st.conversation_history ++
        [Message.mk "user" input,
         Message.mk "assistant"
           (think_and_respond st api input n).1.response]).drop
        (st.conversation_history.length + 2 - 10) ∧
    (∀ turns st0 api0, st0.conversation_history.length ≤ 10 →
      (run_turns st0 api0 turns).1.conversation_history.length ≤ 10) := by
  refine ⟨?_, ?_, ?_⟩
  · rw [turn_conv]
    exact trim10_length_le _
  · rw [turn_conv, trim10_eq_drop]
    congr 1
    simp
  · intro turns
    induction turns with
    | nil =>
      intro st0 api0 h
      exact h
    | cons t rest ih =>
      intro st0 api0 h
      obtain ⟨i0, n0⟩ := t
      show (run_turns (think_and_respond st0 api0 i0 n0).2.1
        (think_and_respond st0 api0 i0 n0).2.2
        rest).1.conversation_history.length ≤ 10
      refine ih _ _ ?_
      rw [turn_conv]
      exact trim10_length_le _

lemma run_rounds_calls (hist0 : List Message) (input : String) (N : Nat) :
    ∀ (k rn : Nat) (cb : String) (trace : List Candidate) (api : ApiState),
      (run_rounds hist0 input N rn k (cb, trace, api)).2.2.oracle =
        api.oracle ∧
      (run_rounds hist0 input N rn k (cb, trace, api)).2.2.count =
        api.count + k * (N + 1) ∧
      ∃ blocks,
        (run_rounds hist0 input N rn k (cb, trace, api)).2.2.log =
          api.log ++ blocks ∧
        IsRoundBlocks hist0 input N k blocks := by
  intro k
  induction k with
  | zero =>
    intro rn cb trace api
    refine ⟨rfl, ?_, [], ?_, IsRoundBlocks.nil⟩
    · show api.count = api.count + 0 * (N + 1)
      omega
    · show api.log = api.log ++ []
      simp
  | succ k ih =>
    intro rn cb trace api
    obtain ⟨hGa, hGo, hGc, hGl⟩ := generate_alternatives_spec hist0 cb input N api
    have hapi : (run_round hist0 input N rn (cb, trace, api)).2.2 =
        (⟨(generate_alternatives hist0 cb input N api).2.oracle,
          (generate_alternatives hist0 cb input N api).2.count + 1,
          (generate_alternatives hist0 cb input N api).2.log ++
            [eval_call_record input cb
              (generate_alternatives hist0 cb input N api).1]⟩ : ApiState) := by
      rw [run_round_eq hist0 input N rn cb trace api _ _ rfl rfl]
      split <;> rfl
    obtain ⟨iho, ihc, blocks, ihl, ihb⟩ :=
      ih (rn + 1) (run_round hist0 input N rn (cb, trace, api)).1
        (run_round hist0 input N rn (cb, trace, api)).2.1
        (run_round hist0 input N rn (cb, trace, api)).2.2
    have ho' : (run_rounds hist0 input N rn (k + 1) (cb, trace, api)).2.2.oracle =
        (run_round hist0 input N rn (cb, trace, api)).2.2.oracle := iho
    have hc' : (run_rounds hist0 input N rn (k + 1) (cb, trace, api)).2.2.count =
        (run_round hist0 input N rn (cb, trace, api)).2.2.count +
          k * (N + 1) := ihc
    have hl' : (run_rounds hist0 input N rn (k + 1) (cb, trace, api)).2.2.log =
        (run_round hist0 input N rn (cb, trace, api)).2.2.log ++ blocks := ihl
    refine ⟨?_, ?_, ?_⟩
    · rw [ho', hapi]
      exact hGo
    · rw [hc', hapi]
      show (generate_alternatives hist0 cb input N api).2.count + 1 +
        k * (N + 1) = api.count + (k + 1) * (N + 1)
      rw [hGc]
      ring
    · refine ⟨(List.range N).map (alt_call_record hist0 input cb) ++
        (eval_call_record input cb
          (generate_alternatives hist0 cb input N api).1 :: blocks), ?_, ?_⟩
      · rw [hl', hapi]
        show (generate_alternatives hist0 cb input N api).2.log ++
          [eval_call_record input cb
            (generate_alternatives hist0 cb input N api).1] ++ blocks = _
        rw [hGl]
        simp [List.append_assoc]
      · refine IsRoundBlocks.cons cb
          (generate_alternatives hist0 cb input N api).1 k blocks ?_ ihb
        rw [hGa]
        simp

/-- C9: a turn with R planned rounds and N alternatives per round issues
exactly 2 + R*(N+1) collaborator calls, recorded strictly sequentially in
the call log: the round-planning call, the initial-answer call, then for
each round its N alternative calls followed by one evaluation call; each
logical step contributes exactly one call (no retry). -/
theorem call_sequence_shape (st : AgentState) (api : ApiState)
    (input : String) (N : Nat) :
    (think_and_respond st api input N).2.2.count =
      api.count +
        (2 + (think_and_respond st api input N).1.thinking_rounds *
          (N + 1)) ∧
    ∃ blocks,
      (think_and_respond st api input N).2.2.log =
        api.log ++ (plan_call_record input ::
          init_call_record st.conversation_history input :: blocks) ∧
      IsRoundBlocks st.conversation_history input N
        (think_and_respond st api input N).1.thinking_rounds blocks := by
  obtain ⟨ho, hc, blocks, hl, hb⟩ :=
    run_rounds_calls st.conversation_history input N
      (determine_rounds_of_reply (api.oracle api.count)) 1
      (api.oracle (api.count + 1))
      [⟨0, api.oracle (api.count + 1), true, none, none⟩]
      ⟨api.oracle, api.count + 2,
       (api.log ++ [plan_call_record input]) ++
         [init_call_record st.conversation_history input]⟩
  have hR : (think_and_respond st api input N).1.thinking_rounds =
      determine_rounds_of_reply (api.oracle api.count) := rfl
  have hcount : (think_and_respond st api input N).2.2.count =
      (api.count + 2) +
        determine_rounds_of_reply (api.oracle api.count) * (N + 1) := hc
  have hlog : (think_and_respond st api input N).2.2.log =
      ((api.log ++ [plan_call_record input]) ++
        [init_call_record st.conversation_history input]) ++ blocks := hl
  refine ⟨?_, blocks, ?_, ?_⟩
  · rw [hR, hcount]
    omega
  · rw [hlog]
    simp [List.append_assoc]
  · rw [hR]
    exact hb

lemma round_count_cons (r : Nat) (c : Candidate) (l : List Candidate) :
    round_count r (c :: l) =
      (if (c.round == r) = true then 1 else 0) + round_count r l := by
  unfold round_count
  rw [List.filter_cons]
  split
  · rw [List.length_cons]
    omega
  · omega

lemma sel_count_cons (r : Nat) (c : Candidate) (l : List Candidate) :
    sel_count r (c :: l) =
      (if (c.round == r && c.selected) = true then 1 else 0) +
        sel_count r l := by
  unfold sel_count
  rw [List.filter_cons]
  split
  · rw [List.length_cons]
    omega
  · omega

lemma round_count_append (r : Nat) (l1 l2 : List Candidate) :
    round_count r (l1 ++ l2) = round_count r l1 + round_count r l2 := by
  unfold round_count
  rw [List.filter_append, List.length_append]

lemma sel_count_append (r : Nat) (l1 l2 : List Candidate) :
    sel_count r (l1 ++ l2) = sel_count r l1 + sel_count r l2 := by
  unfold sel_count
  rw [List.filter_append, List.length_append]

lemma round_count_eq_zero (r : Nat) (l : List Candidate)
    (h : ∀ c ∈ l, c.round ≠ r) : round_count r l = 0 := by
  unfold round_count
  rw [List.filter_eq_nil_iff.mpr (fun c hc => by simpa using h c hc)]
  rfl

lemma sel_count_eq_zero (r : Nat) (l : List Candidate)
    (h : ∀ c ∈ l, (c.round == r && c.selected) = false) :
    sel_count r l = 0 := by
  unfold sel_count
  rw [List.filter_eq_nil_iff.mpr (fun c hc => by simp [h c hc])]
  rfl

lemma sel_count_le_round_count (r : Nat) (l : List Candidate) :
    sel_count r l ≤ round_count r l := by
  induction l with
  | nil => exact Nat.le_refl 0
  | cons c l ih =>
    rw [round_count_cons, sel_count_cons]
    have : (if (c.round == r && c.selected) = true then 1 else 0) ≤
        (if (c.round == r) = true then 1 else 0) := by
      by_cases h : (c.round == r) = true
      · rw [if_pos h]
        split <;> omega
      · rw [if_neg h]
        rw [if_neg fun hh => h (by
          rw [Bool.and_eq_true] at hh
          exact hh.1)]
    omega

lemma mark_one_round (rn : Nat) (w e : String) (c : Candidate) :
    (mark_one rn w e c).round = c.round := by
  unfold mark_one
  split <;> rfl

lemma mark_one_response (rn : Nat) (w e : String) (c : Candidate) :
    (mark_one rn w e c).response = c.response := by
  unfold mark_one
  split <;> rfl

lemma mark_one_id_of_ne (rn : Nat) (w e : String) (c : Candidate)
    (h : c.round ≠ rn) : mark_one rn w e c = c := by
  unfold mark_one
  rw [if_neg]
  intro hc
  rw [Bool.and_eq_true] at hc
  exact h (by simpa using hc.1)

lemma mark_one_sel_ne (r rn : Nat) (hr : r ≠ rn) (w e : String)
    (c : Candidate) :
    ((mark_one rn w e c).round == r && (mark_one rn w e c).selected) =
      (c.round == r && c.selected) := by
  unfold mark_one
  split
  · rename_i h
    rw [Bool.and_eq_true] at h
    have h0 : c.round = rn := by simpa using h.1
    have hne : (c.round == r) = false := by
      rw [h0]
      exact beq_eq_false_iff_ne.mpr (Ne.symm hr)
    show (c.round == r && true) = (c.round == r && c.selected)
    rw [hne, Bool.false_and, Bool.false_and]
  · rfl

lemma mark_selected_append (rn : Nat) (w e : String)
    (l1 l2 : List Candidate) :
    mark_selected rn w e (l1 ++ l2) =
      mark_selected rn w e l1 ++ mark_selected rn w e l2 := by
  unfold mark_selected
  rw [List.map_append]

lemma round_count_mark (r rn : Nat) (w e : String) :
    ∀ l, round_count r (mark_selected rn w e l) = round_count r l := by
  intro l
  induction l with
  | nil => rfl
  | cons c l ih =>
    show round_count r (mark_one rn w e c :: mark_selected rn w e l) = _
    rw [round_count_cons, round_count_cons, ih, mark_one_round]

lemma sel_count_mark_ne (r rn : Nat) (hr : r ≠ rn) (w e : String) :
    ∀ l, sel_count r (mark_selected rn w e l) = sel_count r l := by
  intro l
  induction l with
  | nil => rfl
  | cons c l ih =>
    show sel_count r (mark_one rn w e c :: mark_selected rn w e l) = _
    rw [sel_count_cons, sel_count_cons, ih, mark_one_sel_ne r rn hr]

lemma expl_round (e : String) (c : Candidate) :
    ({ c with explanation := some e } : Candidate).round = c.round := rfl

lemma expl_sel (e : String) (c : Candidate) :
    ({ c with explanation := some e } : Candidate).selected =
      c.selected := rfl

lemma round_count_attach (r : Nat) (cb e : String) :
    ∀ l, round_count r (attach_to_selected cb e l) = round_count r l := by
  intro l
  induction l with
  | nil => rfl
  | cons c l ih =>
    unfold attach_to_selected
    split
    · rw [round_count_cons, round_count_cons, expl_round]
    · rw [round_count_cons, round_count_cons, ih]

lemma sel_count_attach (r : Nat) (cb e : String) :
    ∀ l, sel_count r (attach_to_selected cb e l) = sel_count r l := by
  intro l
  induction l with
  | nil => rfl
  | cons c l ih =>
    unfold attach_to_selected
    split
    · rw [sel_count_cons, sel_count_cons, expl_round, expl_sel]
    · rw [sel_count_cons, sel_count_cons, ih]

lemma attach_shapes (cb e : String) :
    ∀ l, ∀ c' ∈ attach_to_selected cb e l, ∃ c ∈ l,
      c'.round = c.round ∧ c'.response = c.response ∧
        c'.selected = c.selected := by
  intro l
  induction l with
  | nil =>
    intro c' h
    cases h
  | cons c l ih =>
    intro c' h
    unfold attach_to_selected at h
    split at h
    · rcases List.mem_cons.mp h with h | h
      · subst h
        exact ⟨c, List.mem_cons_self c l, rfl, rfl, rfl⟩
      · exact ⟨c', List.mem_cons_of_mem c h, rfl, rfl, rfl⟩
    · rcases List.mem_cons.mp h with h | h
      · subst h
        exact ⟨c', List.mem_cons_self _ l, rfl, rfl, rfl⟩
      · obtain ⟨c0, hc0, hr, hresp, hsel⟩ := ih c' h
        exact ⟨c0, List.mem_cons_of_mem c hc0, hr, hresp, hsel⟩

lemma fresh_shape (rn : Nat) :
    ∀ (alts : List String) (i : Nat), ∀ c ∈ fresh_candidates rn i alts,
      c.round = rn ∧ c.selected = false := by
  intro alts
  induction alts with
  | nil =>
    intro i c h
    cases h
  | cons a alts ih =>
    intro i c h
    rcases List.mem_cons.mp h with h | h
    · subst h
      exact ⟨rfl, rfl⟩
    · exact ih (i + 1) c h

lemma fresh_length (rn : Nat) :
    ∀ (alts : List String) (i : Nat),
      (fresh_candidates rn i alts).length = alts.length := by
  intro alts
  induction alts with
  | nil => intro i; rfl
  | cons a alts ih =>
    intro i
    show (fresh_candidates rn (i + 1) alts).length + 1 = alts.length + 1
    rw [ih (i + 1)]

lemma fresh_round_count (rn : Nat) (alts : List String) (i : Nat) :
    round_count rn (fresh_candidates rn i alts) = alts.length := by
  unfold round_count
  rw [List.filter_eq_self.mpr, fresh_length]
  intro c hc
  have := (fresh_shape rn alts i c hc).1
  simp [this]

lemma fresh_mark_sel (rn : Nat) (w e : String) :
    ∀ (alts : List String) (i : Nat),
      sel_count rn (mark_selected rn w e (fresh_candidates rn i alts)) =
        (alts.filter (fun a => a == w)).length := by
  intro alts
  induction alts with
  | nil => intro i; rfl
  | cons a alts ih =>
    intro i
    have hmark : mark_one rn w e ⟨rn, a, false, none, some (i + 1)⟩ =
        if (a == w) = true then
          (⟨rn, a, true, some e, some (i + 1)⟩ : Candidate)
        else ⟨rn, a, false, none, some (i + 1)⟩ := by
      unfold mark_one
      show (if (rn == rn && (a == w)) = true then _ else _) = _
      rw [beq_self_eq_true, Bool.true_and]
    show sel_count rn (mark_one rn w e ⟨rn, a, false, none, some (i + 1)⟩ ::
      mark_selected rn w e (fresh_candidates rn (i + 1) alts)) = _
    rw [sel_count_cons, ih (i + 1), hmark, List.filter_cons]
    by_cases hb : (a == w) = true
    · rw [if_pos hb, if_pos hb, List.length_cons]
      have : (((⟨rn, a, true, some e, some (i + 1)⟩ : Candidate).round == rn &&
          (⟨rn, a, true, some e, some (i + 1)⟩ : Candidate).selected)) = true := by
        show (rn == rn && true) = true
        rw [beq_self_eq_true, Bool.true_and]
      rw [if_pos this]
      omega
    · rw [if_neg hb, if_neg hb]
      have : (((⟨rn, a, false, none, some (i + 1)⟩ : Candidate).round == rn &&
          (⟨rn, a, false, none, some (i + 1)⟩ : Candidate).selected)) = false := by
        show (rn == rn && false) = false
        rw [Bool.and_false]
      rw [this]
      simp

lemma filter_len_one (w : String) :
    ∀ l : List String, l.Nodup → w ∈ l →
      (l.filter (fun a => a == w)).length = 1 := by
  intro l
  induction l with
  | nil =>
    intro _ h
    cases h
  | cons a l ih =>
    intro hn hm
    rw [List.nodup_cons] at hn
    rw [List.filter_cons]
    by_cases hb : (a == w) = true
    · have haw : a = w := beq_iff_eq.mp hb
      rw [if_pos hb, List.length_cons]
      have hnil : l.filter (fun x => x == w) = [] := by
        apply List.filter_eq_nil_iff.mpr
        intro x hx
        simp only [beq_iff_eq]
        intro hxw
        exact hn.1 (by rw [haw, ← hxw]; exact hx)
      rw [hnil]
      rfl
    · rw [if_neg hb]
      have hm' : w ∈ l := by
        rcases List.mem_cons.mp hm with h | h
        · exact absurd (by rw [h]; exact beq_self_eq_true a) hb
        · exact h
      exact ih hn.2 hm'

lemma alts_nodup (api : ApiState)
    (hinj : ∀ i j, api.oracle i = api.oracle j → i = j) (n : Nat) :
    ((List.range n).map (fun j => api.oracle (api.count + j))).Nodup := by
  refine (List.nodup_range n).map ?_
  intro i j h
  exact Nat.add_left_cancel (hinj _ _ h)

lemma run_round_traceOK (hist0 : List Message) (input init : String)
    (N rn : Nat) (cb : String) (trace : List Candidate) (api : ApiState)
    (hinj : ∀ i j, api.oracle i = api.oracle j → i = j)
    (hrn : 1 ≤ rn)
    (h : TraceOK init N rn trace) :
    TraceOK init N (rn + 1)
      (run_round hist0 input N rn (cb, trace, api)).2.1 ∧
    (run_round hist0 input N rn (cb, trace, api)).2.2.oracle = api.oracle := by
  obtain ⟨h0, hs0, hp0, hlt, hpr⟩ := h
  obtain ⟨hGa, hGo, hGc, hGl⟩ := generate_alternatives_spec hist0 cb input N api
  rcases hG : generate_alternatives hist0 cb input N api with ⟨alts, api1⟩
  rw [hG] at hGa hGo hGc hGl
  dsimp only at hGa hGo hGc hGl
  rcases hEq : evaluate_responses_of_reply (api1.oracle api1.count) cb alts
    with ⟨w, ex⟩
  have hrr := run_round_eq hist0 input N rn cb trace api (alts, api1) (w, ex)
    hG.symm hEq.symm
  dsimp only at hrr
  have h1 : evaluate_winner cb alts
      (evaluate_choice (api1.oracle api1.count)).1 = w :=
    congrArg Prod.fst hEq
  have hwmem := evaluate_winner_mem cb alts
    (evaluate_choice (api1.oracle api1.count)).1
  rw [h1] at hwmem
  have halts_len : alts.length = N := by
    rw [hGa]
    simp
  have hnod : alts.Nodup := by
    rw [hGa]
    exact alts_nodup api hinj N
  have hfr0 : round_count 0 (fresh_candidates rn 0 alts) = 0 :=
    round_count_eq_zero 0 _ (fun c hc => by
      have := (fresh_shape rn alts 0 c hc).1
      omega)
  have hfrR : ∀ r, r ≠ rn → round_count r (fresh_candidates rn 0 alts) = 0 :=
    fun r hr => round_count_eq_zero r _ (fun c hc => by
      have := (fresh_shape rn alts 0 c hc).1
      omega)
  have hfrsel : ∀ r, sel_count r (fresh_candidates rn 0 alts) = 0 :=
    fun r => sel_count_eq_zero r _ (fun c hc => by
      rw [(fresh_shape rn alts 0 c hc).2, Bool.and_false])
  have htrR : round_count rn trace = 0 :=
    round_count_eq_zero rn trace (fun c hc => by
      have := hlt c hc
      omega)
  have htrsel : sel_count rn trace = 0 := by
    have := sel_count_le_round_count rn trace
    omega
  have hroundT : ∀ r, 1 ≤ r → r < rn + 1 →
      round_count r (trace ++ fresh_candidates rn 0 alts) = N := by
    intro r hr1 hr2
    rw [round_count_append]
    by_cases hrrn : r = rn
    · subst hrrn
      rw [htrR, fresh_round_count, halts_len]
      omega
    · rw [(hpr r hr1 (by omega)).1, hfrR r hrrn]
      omega
  by_cases hwcb : w = cb
  · rw [hrr, if_neg (fun hh => hh hwcb)]
    refine ⟨?_, hGo⟩
    show TraceOK init N (rn + 1)
      (attach_to_selected cb ex (trace ++ fresh_candidates rn 0 alts))
    unfold TraceOK
    refine ⟨?_, ?_, ?_, ?_, ?_⟩
    · rw [round_count_attach, round_count_append, h0, hfr0]
    · rw [sel_count_attach, sel_count_append, hs0, hfrsel]
    · intro c' hc' hc0
      obtain ⟨c, hc, hr, hresp, hsel⟩ :=
        attach_shapes cb ex (trace ++ fresh_candidates rn 0 alts) c' hc'
      rcases List.mem_append.mp hc with hm | hm
      · obtain ⟨hs, hrp⟩ := hp0 c hm (by omega)
        exact ⟨by rw [hsel, hs], by rw [hresp, hrp]⟩
      · have := (fresh_shape rn alts 0 c hm).1
        omega
    · intro c' hc'
      obtain ⟨c, hc, hr, _, _⟩ :=
        attach_shapes cb ex (trace ++ fresh_candidates rn 0 alts) c' hc'
      rcases List.mem_append.mp hc with hm | hm
      · have := hlt c hm
        omega
      · have := (fresh_shape rn alts 0 c hm).1
        omega
    · intro r hr1 hr2
      rw [round_count_attach, sel_count_attach, sel_count_append]
      refine ⟨hroundT r hr1 hr2, ?_⟩
      rw [hfrsel]
      by_cases hrrn : r = rn
      · subst hrrn
        omega
      · have := (hpr r hr1 (by omega)).2
        omega
  · rw [hrr, if_pos hwcb]
    refine ⟨?_, hGo⟩
    show TraceOK init N (rn + 1)
      (mark_selected rn w ex (trace ++ fresh_candidates rn 0 alts))
    unfold TraceOK
    refine ⟨?_, ?_, ?_, ?_, ?_⟩
    · rw [round_count_mark, round_count_append, h0, hfr0]
    · rw [sel_count_mark_ne 0 rn (by omega), sel_count_append, hs0, hfrsel]
    · intro c' hc' hc0
      obtain ⟨c, hc, hceq⟩ := List.mem_map.mp hc'
      have hcr : c.round = 0 := by
        rw [← hc0, ← hceq, mark_one_round]
      rcases List.mem_append.mp hc with hm | hm
      · have hid : mark_one rn w ex c = c :=
          mark_one_id_of_ne rn w ex c (by omega)
        rw [← hceq, hid]
        exact hp0 c hm hcr
      · have := (fresh_shape rn alts 0 c hm).1
        omega
    · intro c' hc'
      obtain ⟨c, hc, hceq⟩ := List.mem_map.mp hc'
      have hcr : c'.round = c.round := by
        rw [← hceq, mark_one_round]
      rcases List.mem_append.mp hc with hm | hm
      · have := hlt c hm
        omega
      · have := (fresh_shape rn alts 0 c hm).1
        omega
    · intro r hr1 hr2
      refine ⟨by rw [round_count_mark, hroundT r hr1 hr2], ?_⟩
      by_cases hrrn : r = rn
      · subst hrrn
        rw [mark_selected_append, sel_count_append]
        have hmt : sel_count r (mark_selected r w ex trace) = 0 :=
          sel_count_eq_zero r _ (fun c' hc' => by
            obtain ⟨c, hc, hceq⟩ := List.mem_map.mp hc'
            have : c'.round = c.round := by
              rw [← hceq, mark_one_round]
            have hlt' := hlt c hc
            have hne : (c'.round == r) = false :=
              beq_eq_false_iff_ne.mpr (by omega)
            rw [hne, Bool.false_and])
        rw [hmt, fresh_mark_sel r w ex alts 0,
          filter_len_one w alts hnod (hwmem.resolve_left hwcb)]
      · rw [sel_count_mark_ne r rn hrrn, sel_count_append, hfrsel]
        have := (hpr r hr1 (by omega)).2
        omega

lemma run_rounds_traceOK (hist0 : List Message) (input init : String)
    (N : Nat) :
    ∀ (k rn : Nat) (cb : String) (trace : List Candidate) (api : ApiState),
      (∀ i j, api.oracle i = api.oracle j → i = j) →
      1 ≤ rn →
      TraceOK init N rn trace →
      TraceOK init N (rn + k)
        (run_rounds hist0 input N rn k (cb, trace, api)).2.1 := by
  intro k
  induction k with
  | zero =>
    intro rn cb trace api hinj hrn h
    exact h
  | succ k ih =>
    intro rn cb trace api hinj hrn h
    obtain ⟨h1, h2⟩ :=
      run_round_traceOK hist0 input init N rn cb trace api hinj hrn h
    have hinj' : ∀ i j,
        (run_round hist0 input N rn (cb, trace, api)).2.2.oracle i =
        (run_round hist0 input N rn (cb, trace, api)).2.2.oracle j →
          i = j := by
      rw [h2]
      exact hinj
    have step : run_rounds hist0 input N rn (k + 1) (cb, trace, api) =
        run_rounds hist0 input N (rn + 1) k
          ((run_round hist0 input N rn (cb, trace, api)).1,
           (run_round hist0 input N rn (cb, trace, api)).2.1,
           (run_round hist0 input N rn (cb, trace, api)).2.2) := rfl
    rw [step]
    have hres := ih (rn + 1)
      (run_round hist0 input N rn (cb, trace, api)).1
      (run_round hist0 input N rn (cb, trace, api)).2.1
      (run_round hist0 input N rn (cb, trace, api)).2.2
      hinj' (by omega) h1
    have harith : rn + (k + 1) = (rn + 1) + k := by omega
    rw [harith]
    exact hres

lemma traceOK_init (init : String) (N : Nat) :
    TraceOK init N 1 [⟨0, init, true, none, none⟩] := by
  unfold TraceOK
  refine ⟨rfl, rfl, ?_, ?_, ?_⟩
  · intro c hc h0
    rw [List.mem_singleton] at hc
    subst hc
    exact ⟨rfl, rfl⟩
  · intro c hc
    rw [List.mem_singleton] at hc
    subst hc
    exact Nat.zero_lt_one
  · intro r hr1 hr2
    exact absurd hr2 (by omega)

/-- C1 amended: for a completed turn whose collaborator replies are
pairwise distinct, round 0 of the trace holds exactly one Candidate - the
initial answer - which remains marked selected for the whole turn (the flag
is never cleared when a later round's winner supersedes it), and every
round r in [1, thinking_rounds] holds exactly N candidates of which AT MOST
one is marked selected: none when that round's evaluation kept the current
best, so "exactly one selected per round" does not hold in general. -/
theorem thinking_trace_selection (st : AgentState) (api : ApiState)
    (input : String) (N : Nat)
    (hinj : ∀ i j, api.oracle i = api.oracle j → i = j) :
    round_count 0 (think_and_respond st api input N).1.thinking_history
      = 1 ∧
    sel_count 0 (think_and_respond st api input N).1.thinking_history
      = 1 ∧
    (∀ c ∈ (think_and_respond st api input N).1.thinking_history,
      c.round = 0 → c.selected = true ∧
        c.response = api.oracle (api.count + 1)) ∧
    (∀ r, 1 ≤ r →
      r ≤ (think_and_respond st api input N).1.thinking_rounds →
      round_count r (think_and_respond st api input N).1.thinking_history
        = N ∧
      sel_count r (think_and_respond st api input N).1.thinking_history
        ≤ 1) ∧
    (∀ r, (think_and_respond st api input N).1.thinking_rounds < r →
      round_count r (think_and_respond st api input N).1.thinking_history
        = 0) := by
  have hist_eq : (think_and_respond st api input N).1.thinking_history =
      (run_rounds st.conversation_history input N 1
        (determine_rounds_of_reply (api.oracle api.count))
        (api.oracle (api.count + 1),
         [⟨0, api.oracle (api.count + 1), true, none, none⟩],
         ⟨api.oracle, api.count + 2,
          (api.log ++ [plan_call_record input]) ++
            [init_call_record st.conversation_history input]⟩)).2.1 := rfl
  have hR : (think_and_respond st api input N).1.thinking_rounds =
      determine_rounds_of_reply (api.oracle api.count) := rfl
  have hok := run_rounds_traceOK st.conversation_history input
    (api.oracle (api.count + 1)) N
    (determine_rounds_of_reply (api.oracle api.count)) 1
    (api.oracle (api.count + 1))
    [⟨0, api.oracle (api.count + 1), true, none, none⟩]
    ⟨api.oracle, api.count + 2,
     (api.log ++ [plan_call_record input]) ++
       [init_call_record st.conversation_history input]⟩
    hinj (Nat.le_refl 1) (traceOK_init _ N)
  obtain ⟨k0, ks0, kp0, klt, kpr⟩ := hok
  rw [hist_eq, hR]
  refine ⟨k0, ks0, kp0, ?_, ?_⟩
  · intro r h1 h2
    exact kpr r h1 (by omega)
  · intro r hr
    apply round_count_eq_zero
    intro c hc
    have := klt c hc
    omega

theorem thinking_trace_selection_witness :
    round_count 0 (think_and_respond ⟨[], []⟩ ⟨rep_oracle, 0, []⟩
      "q" 2).1.thinking_history = 1 ∧
    sel_count 0 (think_and_respond ⟨[], []⟩ ⟨rep_oracle, 0, []⟩
      "q" 2).1.thinking_history = 1 ∧
    (∀ c ∈ (think_and_respond ⟨[], []⟩ ⟨rep_oracle, 0, []⟩
      "q" 2).1.thinking_history,
      c.round = 0 → c.selected = true ∧ c.response = rep_oracle 1) ∧
    (∀ r, 1 ≤ r → r ≤ (think_and_respond ⟨[], []⟩ ⟨rep_oracle, 0, []⟩
      "q" 2).1.thinking_rounds →
      round_count r (think_and_respond ⟨[], []⟩ ⟨rep_oracle, 0, []⟩
        "q" 2).1.thinking_history = 2 ∧
      sel_count r (think_and_respond ⟨[], []⟩ ⟨rep_oracle, 0, []⟩
        "q" 2).1.thinking_history ≤ 1) ∧
    (∀ r, (think_and_respond ⟨[], []⟩ ⟨rep_oracle, 0, []⟩
      "q" 2).1.thinking_rounds < r →
      round_count r (think_and_respond ⟨[], []⟩ ⟨rep_oracle, 0, []⟩
        "q" 2).1.thinking_history = 0) :=
  thinking_trace_selection ⟨[], []⟩ ⟨rep_oracle, 0, []⟩ "q" 2 rep_oracle_inj

/-- C10: the save operations are pure observers of the session state: each
returns the agent state unchanged next to the data it serializes, so
running one between turns leaves a later turn untouched. -/
theorem save_operations_frame (st : AgentState) (api : ApiState)
    (input ui : String) (result : TurnResult) (n : Nat) :
    (save_conversation st).1 = st ∧
    (save_full_log st).1 = st ∧
    (save_response_as_markdown st ui result).1 = st ∧
    think_and_respond (save_full_log st).1 api input n =
      think_and_respond st api input n ∧
    think_and_respond (save_conversation st).1 api input n =
      think_and_respond st api input n ∧
    think_and_respond (save_response_as_markdown st ui result).1 api input n =
      think_and_respond st api input n :=
  ⟨rfl, rfl, rfl, rfl, rfl, rfl⟩

end RecThink
